import Mathlib

/-!
# Neural-network visualizer: shallow embedding and verification

This file embeds the core of the neural-network visualizer widget
(`src/components/NeuralNetworkVisualizer.tsx` and its labeled variant):
the JavaScript-style integer parsing used by the input handlers, the
widget's state and its `handleInputChange` transition, the pure layout
computation (node positions and full-bipartite connections between
adjacent layers), the render branch that suppresses the diagram on a
validation error, and the animated data-flow marker's kinematics.
Theorems below settle the specification's claims about this code.
-/

namespace NNVis

/-- Decimal digit value of a character, `none` when not a digit. -/
def digitVal (c : Char) : Option Nat :=
  if '0' ≤ c ∧ c ≤ '9' then some (c.toNat - '0'.toNat) else none

/-- Hexadecimal digit value of a character, `none` when not a hex digit. -/
def hexDigitVal (c : Char) : Option Nat :=
  if '0' ≤ c ∧ c ≤ '9' then some (c.toNat - '0'.toNat)
  else if 'a' ≤ c ∧ c ≤ 'f' then some (c.toNat - 'a'.toNat + 10)
  else if 'A' ≤ c ∧ c ≤ 'F' then some (c.toNat - 'A'.toNat + 10)
  else none

/-- Longest leading run of digits (per `dv`) interpreted in base `base`;
`none` when there is no leading digit (JavaScript `parseInt` yields `NaN`). -/
def parseLeadingDigits (dv : Char → Option Nat) (base : Nat) (cs : List Char) : Option Nat :=
  let ds := cs.takeWhile (fun c => (dv c).isSome)
  if ds = [] then none
  else some (ds.foldl (fun acc c => acc * base + (dv c).getD 0) 0)

/-- Unsigned part of JavaScript `parseInt` with unspecified radix:
a `0x`/`0X` prefix selects base 16, otherwise base 10. -/
def parseUnsigned (cs : List Char) : Option Nat :=
  match cs with
  | '0' :: 'x' :: rest => parseLeadingDigits hexDigitVal 16 rest
  | '0' :: 'X' :: rest => parseLeadingDigits hexDigitVal 16 rest
  | cs => parseLeadingDigits digitVal 10 cs

/-- The whitespace characters relevant to JavaScript trimming. -/
def isWhitespaceChar (c : Char) : Bool :=
  c = ' ' ∨ c = '\t' ∨ c = '\n' ∨ c = '\r'

/-- JavaScript `String.prototype.trim`: drop whitespace at both ends. -/
def jsTrim (cs : List Char) : List Char :=
  ((cs.dropWhile isWhitespaceChar).reverse.dropWhile isWhitespaceChar).reverse

/-- JavaScript `String.prototype.split` with a one-character separator:
`"".split(sep)` is `[""]`, and separators delimit (possibly empty)
segments. -/
def splitOnChar (sep : Char) : List Char → List (List Char)
  | [] => [[]]
  | c :: rest =>
    if c = sep then [] :: splitOnChar sep rest
    else
      match splitOnChar sep rest with
      | [] => [[c]]
      | seg :: segs => (c :: seg) :: segs

/-- JavaScript `parseInt(s)` (radix argument omitted) on a character
list: skip leading whitespace, read an optional sign, then the longest
digit prefix; `none` models a `NaN` result. -/
def parseIntChars (cs : List Char) : Option Int :=
  match cs.dropWhile isWhitespaceChar with
  | '-' :: rest => (parseUnsigned rest).map (fun n => -(n : Int))
  | '+' :: rest => (parseUnsigned rest).map (fun n => (n : Int))
  | rest => (parseUnsigned rest).map (fun n => (n : Int))

/-- `parseInt` on a string. -/
def parseIntJS (s : String) : Option Int :=
  parseIntChars s.toList

/-- The hidden-layers parse from `handleInputChange`:
`value.split(',').map(n => parseInt(n.trim())).filter(n => !isNaN(n))`. -/
def parseHiddenLayers (value : String) : List Int :=
  ((splitOnChar ',' value.toList).map (fun n => parseIntChars (jsTrim n))).filterMap id

/-- JavaScript `parseInt(value) || 1`: `NaN` and `0` are falsy and fall
back to `1`. -/
def parseIntOrOne (v : Option Int) : Int :=
  match v with
  | none => 1
  | some n => if n = 0 then 1 else n

/-- `Math.max(parseInt(value) || 1, 1)` from the numeric-field branch of
`handleInputChange`. -/
def coerceNodeCount (value : String) : Int :=
  max (parseIntOrOne (parseIntJS value)) 1

/-- `NeuralNetworkConfig` from the source. -/
structure Config where
  inputNodes : Int
  hiddenLayers : List Int
  outputNodes : Int
deriving Repr, DecidableEq

/-- The widget's state: `config`, `speed`, `hiddenLayersInput`, `error`
and (in the labeled variant) `diagramName`. -/
structure State where
  config : Config
  speed : ℚ
  hiddenLayersInput : String
  error : Option String
  diagramName : String
deriving Repr, DecidableEq

/-- A user-input event on one of the widget's form controls. -/
inductive Event where
  | editHiddenLayers (value : String)
  | editSpeed (value : ℚ)
  | editDiagramName (value : String)
  | editInputNodes (value : String)
  | editOutputNodes (value : String)
deriving Repr, DecidableEq

/-- The fixed validation message set on a malformed hidden-layers spec. -/
def errorMessage : String :=
  "Invalid hidden layers input. Please enter comma-separated numbers (e.g., 4,3,2) or leave empty."

/-- `handleInputChange` from the source, one branch per field name. -/
def handleInputChange (st : State) (e : Event) : State :=
  match e with
  | .editHiddenLayers value =>
    let parsedLayers := parseHiddenLayers value
    if parsedLayers = [] ∧ value ≠ "" then
      { st with hiddenLayersInput := value, error := some errorMessage }
    else
      { st with hiddenLayersInput := value, error := none,
                config := { st.config with hiddenLayers := parsedLayers } }
  | .editSpeed value => { st with speed := value }
  | .editDiagramName value => { st with diagramName := value }
  | .editInputNodes value =>
    { st with config := { st.config with inputNodes := coerceNodeCount value } }
  | .editOutputNodes value =>
    { st with config := { st.config with outputNodes := coerceNodeCount value } }

/-- The `useState` initial values of the component. -/
def initialState : State :=
  { config := { inputNodes := 3, hiddenLayers := [4], outputNodes := 2 },
    speed := 1,
    hiddenLayersInput := "4",
    error := none,
    diagramName := "My Neural Network" }

/-- States reachable from the initial state by field-edit events. -/
inductive Reachable : State → Prop
  | init : Reachable initialState
  | next {st : State} (e : Event) : Reachable st → Reachable (handleInputChange st e)

/-! ## Layout -/

/-- A node position (pixel coordinates, exact rationals). -/
structure Point where
  x : ℚ
  y : ℚ
deriving Repr, DecidableEq

/-- `const layerDistance = 150`. -/
def layerDistance : ℚ := 150

/-- `const neuronDistance = 40`. -/
def neuronDistance : ℚ := 40

/-- `[config.inputNodes, ...config.hiddenLayers, config.outputNodes]`. -/
def layersOf (c : Config) : List Int :=
  c.inputNodes :: (c.hiddenLayers ++ [c.outputNodes])

/-- `Math.max(...layers)` for the nonempty spread the component builds
(the `[]` case is unreachable there and mapped to a junk value). -/
def jsMaxList (l : List Int) : Int :=
  match l with
  | [] => 0
  | x :: xs => xs.foldl max x

/-- `const width = (layers.length - 1) * layerDistance + 100`. -/
def canvasWidth (layers : List Int) : ℚ :=
  ((layers.length : ℚ) - 1) * layerDistance + 100

/-- `const height = Math.max(...layers) * neuronDistance`. -/
def canvasHeight (layers : List Int) : ℚ :=
  (jsMaxList layers : ℚ) * neuronDistance

/-- One layer's node positions:
`Array.from({length: nodeCount}, (_, nodeIndex) => ({x: layerIndex*layerDistance + 50, y: nodeIndex*neuronDistance + (height - (nodeCount-1)*neuronDistance)/2 + off}))`;
`off` is `0` in the plain component and `30` in the labeled variant
(`Array.from` treats a negative length as `0`). -/
def layerNeurons (height off : ℚ) (layerIndex : Nat) (nodeCount : Int) : List Point :=
  (List.range nodeCount.toNat).map (fun (nodeIndex : Nat) =>
    { x := (layerIndex : ℚ) * layerDistance + 50,
      y := (nodeIndex : ℚ) * neuronDistance
             + (height - ((nodeCount : ℚ) - 1) * neuronDistance) / 2 + off })

/-- `const neurons = layers.map((nodeCount, layerIndex) => ...)`. -/
def neuronsOf (off : ℚ) (layers : List Int) : List (List Point) :=
  layers.enum.map (fun p => layerNeurons (canvasHeight layers) off p.1 p.2)

/-- A connection between two node positions, with its render key. -/
structure Conn where
  startX : ℚ
  startY : ℚ
  endX : ℚ
  endY : ℚ
  key : String
deriving Repr, DecidableEq

/-- `const connections = layers.slice(0, -1).flatMap((_, layerIndex) => neurons[layerIndex].flatMap((startNeuron, startIndex) => neurons[layerIndex+1].map((endNeuron, endIndex) => ...)))`. -/
def connectionsOf (layers : List Int) (neurons : List (List Point)) : List Conn :=
  (List.range (layers.length - 1)).flatMap (fun layerIndex =>
    (neurons.getD layerIndex []).enum.flatMap (fun s =>
      (neurons.getD (layerIndex + 1) []).enum.map (fun e =>
        { startX := s.2.x, startY := s.2.y, endX := e.2.x, endY := e.2.y,
          key := toString layerIndex ++ "-" ++ toString s.1 ++ "-" ++ toString e.1 })))

/-! ## Render branch -/

/-- What one render pass of the component emits. -/
structure RenderOutput where
  nodes : List Point
  conns : List Conn
  flows : List Conn
  errorMsgs : List String
  label : Option String
deriving Repr, DecidableEq

/-- The plain component's render: on `error` only the alert is shown;
otherwise the svg holds `connections`, `neurons.flat()` and one
`DataFlow` per connection. -/
def render (st : State) : RenderOutput :=
  match st.error with
  | some msg => { nodes := [], conns := [], flows := [], errorMsgs := [msg], label := none }
  | none =>
    let layers := layersOf st.config
    let neurons := neuronsOf 0 layers
    let conns := connectionsOf layers neurons
    { nodes := neurons.flatten, conns := conns, flows := conns,
      errorMsgs := [], label := none }

/-- The labeled variant's render: node rows are shifted down by 30 to
reserve room for the `diagramName` text element above them. -/
def renderLabeled (st : State) : RenderOutput :=
  match st.error with
  | some msg => { nodes := [], conns := [], flows := [], errorMsgs := [msg], label := none }
  | none =>
    let layers := layersOf st.config
    let neurons := neuronsOf 30 layers
    let conns := connectionsOf layers neurons
    { nodes := neurons.flatten, conns := conns, flows := conns,
      errorMsgs := [], label := some st.diagramName }

/-! ## Helper lemmas -/

/-- The layer spread always holds the two mandatory layers plus the
hidden ones. -/
theorem layersOf_length (c : Config) : (layersOf c).length = c.hiddenLayers.length + 2 := by
  simp [layersOf]

/-- An edit of the hidden-layers field whose text is empty or parses to a
nonempty list always clears the error. -/
theorem error_clear_of_valid (st : State) (w : String)
    (h : w = "" ∨ parseHiddenLayers w ≠ []) :
    (handleInputChange st (Event.editHiddenLayers w)).error = none := by
  unfold handleInputChange
  dsimp only
  split
  · rename_i hcond
    rcases h with h | h
    · exact absurd h hcond.2
    · exact absurd hcond.1 h
  · rfl

/-! ## Claim theorems -/

/-- Claim C3: the hidden-layers parsing function maps `"4,3,2"` to
`[4,3,2]`, `"4, ,2"` to `[4,2]` (blank/unparseable segments dropped),
`""` to `[]` with the widget staying valid, and `"abc"` to `[]` with the
widget entering the invalid state carrying the fixed error message. -/
theorem C3_parsing_examples :
    parseHiddenLayers "4,3,2" = [4, 3, 2] ∧
    parseHiddenLayers "4, ,2" = [4, 2] ∧
    parseHiddenLayers "" = [] ∧
    (handleInputChange initialState (Event.editHiddenLayers "")).error = none ∧
    (handleInputChange initialState (Event.editHiddenLayers "")).config.hiddenLayers = [] ∧
    parseHiddenLayers "abc" = [] ∧
    (handleInputChange initialState (Event.editHiddenLayers "abc")).error = some errorMessage := by
  refine ⟨by decide, by decide, by decide, by decide, by decide, by decide, by decide⟩

/-- Claim C6: every string written into the `inputNodes` or `outputNodes`
field is coerced to an integer clamped to a minimum of `1` (non-numeric
and zero input default to `1`), the clamped value is what the config
stores, and such an edit never touches the error state; in particular
`"0"`, `"-5"` and `"abc"` all yield `1`. -/
theorem C6_numeric_clamp (value : String) (st : State) :
    1 ≤ coerceNodeCount value ∧
    (handleInputChange st (Event.editInputNodes value)).config.inputNodes
      = coerceNodeCount value ∧
    (handleInputChange st (Event.editOutputNodes value)).config.outputNodes
      = coerceNodeCount value ∧
    (handleInputChange st (Event.editInputNodes value)).error = st.error ∧
    (handleInputChange st (Event.editOutputNodes value)).error = st.error ∧
    coerceNodeCount "0" = 1 ∧ coerceNodeCount "-5" = 1 ∧ coerceNodeCount "abc" = 1 :=
  ⟨le_max_right _ _, rfl, rfl, rfl, rfl, by decide, by decide, by decide⟩

/-- Claim C2, counterexample: editing the hidden-layers field to `"0"`
reaches a state whose `hiddenLayers` is `[0]`, so the layer-size sequence
contains an element `< 1` and the claimed invariant fails. -/
theorem C2_counterexample :
    Reachable (handleInputChange initialState (Event.editHiddenLayers "0")) ∧
    (handleInputChange initialState (Event.editHiddenLayers "0")).config.hiddenLayers = [0] ∧
    ¬ (∀ x ∈ layersOf (handleInputChange initialState (Event.editHiddenLayers "0")).config,
        1 ≤ x) :=
  ⟨Reachable.next (Event.editHiddenLayers "0") Reachable.init, by decide, by decide⟩

/-- Claim C2, amended: every reachable state keeps `inputNodes ≥ 1` and
`outputNodes ≥ 1` and a layer sequence of length `≥ 2`; the hidden-layer
entries, however, are whatever integers parse from the text and may be
`0` or negative. -/
theorem C2_amended_invariant (st : State) (h : Reachable st) :
    1 ≤ st.config.inputNodes ∧ 1 ≤ st.config.outputNodes ∧
    2 ≤ (layersOf st.config).length := by
  induction h with
  | init => refine ⟨by decide, by decide, by decide⟩
  | next e hst ih =>
    obtain ⟨h1, h2, _⟩ := ih
    rename_i st'
    have hlen : ∀ c : Config, 2 ≤ (layersOf c).length := by
      intro c; rw [layersOf_length]; omega
    cases e with
    | editHiddenLayers value =>
      unfold handleInputChange
      dsimp only
      split
      · exact ⟨h1, h2, hlen _⟩
      · exact ⟨h1, h2, hlen _⟩
    | editSpeed value => exact ⟨h1, h2, hlen _⟩
    | editDiagramName value => exact ⟨h1, h2, hlen _⟩
    | editInputNodes value => exact ⟨le_max_right _ _, h2, hlen _⟩
    | editOutputNodes value => exact ⟨h1, le_max_right _ _, hlen _⟩

/-- Witness for the amended C2 invariant at the initial state. -/
theorem C2_amended_invariant_witness :
    1 ≤ initialState.config.inputNodes ∧ 1 ≤ initialState.config.outputNodes ∧
    2 ≤ (layersOf initialState.config).length :=
  C2_amended_invariant initialState Reachable.init

/-- Claim C10: an edit of the hidden-layers field whose non-empty text
parses to zero integers leaves the whole `TopologyConfig` (and the speed
and label) exactly as before; only the raw text and the error change. -/
theorem C10_invalid_edit_frame (st : State) (value : String)
    (h1 : value ≠ "") (h2 : parseHiddenLayers value = []) :
    (handleInputChange st (Event.editHiddenLayers value)).config = st.config ∧
    (handleInputChange st (Event.editHiddenLayers value)).speed = st.speed ∧
    (handleInputChange st (Event.editHiddenLayers value)).diagramName = st.diagramName ∧
    (handleInputChange st (Event.editHiddenLayers value)).hiddenLayersInput = value ∧
    (handleInputChange st (Event.editHiddenLayers value)).error = some errorMessage := by
  unfold handleInputChange
  dsimp only
  rw [if_pos ⟨h2, h1⟩]
  exact ⟨rfl, rfl, rfl, rfl, rfl⟩

/-- Witness for C10 at the initial state and the text `"abc"`. -/
theorem C10_invalid_edit_frame_witness :
    ("abc" ≠ "" ∧ parseHiddenLayers "abc" = []) ∧
    (handleInputChange initialState (Event.editHiddenLayers "abc")).config
      = initialState.config :=
  ⟨⟨by decide, by decide⟩,
   (C10_invalid_edit_frame initialState "abc" (by decide) (by decide)).1⟩

/-- Claim C7: after an edit of the hidden-layers field the error is set
iff the raw text is non-empty and parses to zero integers; whenever it is
set the render holds zero nodes, zero connections, zero animated markers
and exactly one error message; and any subsequent hidden-layers edit
whose text is empty or parses to at least one integer clears it. -/
theorem C7_error_state (st : State) (value : String) :
    ((handleInputChange st (Event.editHiddenLayers value)).error ≠ none ↔
      (value ≠ "" ∧ parseHiddenLayers value = [])) ∧
    (∀ msg, (handleInputChange st (Event.editHiddenLayers value)).error = some msg →
      render (handleInputChange st (Event.editHiddenLayers value)) =
        { nodes := [], conns := [], flows := [], errorMsgs := [msg], label := none }) ∧
    (∀ w : String, (w = "" ∨ parseHiddenLayers w ≠ []) →
      (handleInputChange (handleInputChange st (Event.editHiddenLayers value))
        (Event.editHiddenLayers w)).error = none) := by
  refine ⟨?_, ?_, fun w hw => error_clear_of_valid _ w hw⟩
  · unfold handleInputChange
    dsimp only
    split
    · rename_i hcond
      simp only [ne_eq, reduceCtorEq, not_false_eq_true, true_iff]
      exact ⟨hcond.2, hcond.1⟩
    · rename_i hcond
      simp only [ne_eq, not_true_eq_false, false_iff, not_and]
      intro hne hpar
      exact hcond ⟨hpar, hne⟩
  · intro msg hmsg
    simp only [render, hmsg]

/-- Witness for C7 at the initial state: `"abc"` sets the error and
suppresses the diagram; a follow-up edit to `"4,3"` clears it. -/
theorem C7_error_state_witness :
    (handleInputChange initialState (Event.editHiddenLayers "abc")).error ≠ none ∧
    render (handleInputChange initialState (Event.editHiddenLayers "abc")) =
      { nodes := [], conns := [], flows := [], errorMsgs := [errorMessage], label := none } ∧
    (handleInputChange (handleInputChange initialState (Event.editHiddenLayers "abc"))
        (Event.editHiddenLayers "4,3")).error = none := by
  refine ⟨?_, ?_, ?_⟩
  · exact (C7_error_state initialState "abc").1.mpr ⟨by decide, by decide⟩
  · exact (C7_error_state initialState "abc").2.1 errorMessage (by decide)
  · exact (C7_error_state initialState "abc").2.2 "4,3" (Or.inr (by decide))

/-- Claim C9: editing the diagram-label field stores the new label
verbatim and leaves the config, every node position, the connection set
and the node and connection counts unchanged. -/
theorem C9_label_frame (st : State) (value : String) :
    (handleInputChange st (Event.editDiagramName value)).config = st.config ∧
    (handleInputChange st (Event.editDiagramName value)).diagramName = value ∧
    (renderLabeled (handleInputChange st (Event.editDiagramName value))).nodes
      = (renderLabeled st).nodes ∧
    (renderLabeled (handleInputChange st (Event.editDiagramName value))).conns
      = (renderLabeled st).conns ∧
    (renderLabeled (handleInputChange st (Event.editDiagramName value))).flows
      = (renderLabeled st).flows ∧
    (renderLabeled (handleInputChange st (Event.editDiagramName value))).nodes.length
      = (renderLabeled st).nodes.length ∧
    (renderLabeled (handleInputChange st (Event.editDiagramName value))).conns.length
      = (renderLabeled st).conns.length := by
  cases herr : st.error with
  | none =>
    refine ⟨rfl, rfl, ?_, ?_, ?_, ?_, ?_⟩ <;>
      simp only [renderLabeled, handleInputChange, herr]
  | some msg =>
    refine ⟨rfl, rfl, ?_, ?_, ?_, ?_, ?_⟩ <;>
      simp only [renderLabeled, handleInputChange, herr]

/-- The seed of a `max` fold is below the result. -/
theorem le_foldl_max {α : Type} [LinearOrder α] :
    ∀ (l : List α) (a : α), a ≤ l.foldl max a := by
  intro l
  induction l with
  | nil => intro a; exact le_refl a
  | cons x xs ih =>
    intro a
    exact le_trans (le_max_left a x) (ih (max a x))

/-- Every list element is below the result of a `max` fold. -/
theorem mem_le_foldl_max {α : Type} [LinearOrder α] :
    ∀ (l : List α) (a x : α), x ∈ l → x ≤ l.foldl max a := by
  intro l
  induction l with
  | nil => intro a x hx; cases hx
  | cons y ys ih =>
    intro a x hx
    rcases List.mem_cons.mp hx with h | h
    · subst h
      exact le_trans (le_max_right a x) (le_foldl_max ys (max a x))
    · exact ih (max a y) x h

/-- A `max` fold returns its seed or a list element. -/
theorem foldl_max_mem {α : Type} [LinearOrder α] :
    ∀ (l : List α) (a : α), l.foldl max a = a ∨ l.foldl max a ∈ l := by
  intro l
  induction l with
  | nil => intro a; exact Or.inl rfl
  | cons x xs ih =>
    intro a
    rcases ih (max a x) with h | h
    · rcases max_cases a x with ⟨hm, _⟩ | ⟨hm, _⟩
      · exact Or.inl (by rw [List.foldl_cons, h, hm])
      · exact Or.inr (by rw [List.foldl_cons, h, hm]; exact List.mem_cons_self x xs)
    · exact Or.inr (List.mem_cons_of_mem x h)

/-- `jsMaxList` of a nonempty list is one of its elements. -/
theorem jsMaxList_mem (l : List Int) (h : l ≠ []) : jsMaxList l ∈ l := by
  match l with
  | [] => exact absurd rfl h
  | x :: xs =>
    rcases foldl_max_mem xs x with hm | hm
    · rw [jsMaxList, hm]; exact List.mem_cons_self x xs
    · exact List.mem_cons_of_mem x hm

/-- `jsMaxList` dominates every element. -/
theorem jsMaxList_ge (l : List Int) (x : Int) (hx : x ∈ l) : x ≤ jsMaxList l := by
  match l with
  | [] => cases hx
  | y :: ys =>
    rcases List.mem_cons.mp hx with h | h
    · subst h; exact le_foldl_max ys x
    · exact mem_le_foldl_max ys y x h

/-- Claim C4: for a topology of `n` layers the computed canvas width is
`(n-1)*150 + 100` and the computed canvas height is `max(s_1..s_n)*40`,
where the factor really is the maximum layer size. -/
theorem C4_canvas_dimensions (layers : List Int) (h : layers ≠ []) :
    canvasWidth layers = ((layers.length : ℚ) - 1) * 150 + 100 ∧
    canvasHeight layers = (jsMaxList layers : ℚ) * 40 ∧
    jsMaxList layers ∈ layers ∧
    (∀ x ∈ layers, x ≤ jsMaxList layers) := by
  exact ⟨rfl, rfl, jsMaxList_mem layers h, fun x hx => jsMaxList_ge layers x hx⟩

/-- Witness for C4 on the default topology `[3, 4, 2]`. -/
theorem C4_canvas_dimensions_witness :
    ([3, 4, 2] : List Int) ≠ [] ∧
    canvasHeight [3, 4, 2] = ((jsMaxList [3, 4, 2] : Int) : ℚ) * 40 ∧
    jsMaxList [3, 4, 2] ∈ ([3, 4, 2] : List Int) :=
  ⟨by decide, (C4_canvas_dimensions [3, 4, 2] (by decide)).2.1,
    (C4_canvas_dimensions [3, 4, 2] (by decide)).2.2.1⟩

/-- Row `i` of the neuron grid is the `i`-th layer's node list. -/
theorem neuronsOf_getD (off : ℚ) (layers : List Int) (i : Nat)
    (hi : i < layers.length) :
    (neuronsOf off layers).getD i []
      = layerNeurons (canvasHeight layers) off i (layers.getD i 0) := by
  rw [neuronsOf, List.getD_eq_getElem?_getD, List.getElem?_map, List.getElem?_enum,
      List.getElem?_eq_getElem hi]
  simp [List.getD_eq_getElem?_getD, List.getElem?_eq_getElem hi]

/-- Claim C5: node `j` of layer `i` (of size `s`) sits at
`x = i*150 + 50` and `y = j*40 + (canvasHeight - (s-1)*40)/2 + off`,
where `off` is the label-reservation offset (`0` in the plain component,
`30` in the labeled variant). -/
theorem C5_node_coordinates (off : ℚ) (layers : List Int) (i j : Nat)
    (hi : i < layers.length) (hj : j < (layers.getD i 0).toNat) :
    ((neuronsOf off layers).getD i []).getD j ⟨0, 0⟩ =
      { x := (i : ℚ) * 150 + 50,
        y := (j : ℚ) * 40
               + (canvasHeight layers - (((layers.getD i 0 : Int) : ℚ) - 1) * 40) / 2
               + off } := by
  rw [neuronsOf_getD off layers i hi]
  have hj' : j < (layers[i]?.getD 0).toNat := by
    rwa [List.getD_eq_getElem?_getD] at hj
  simp only [layerNeurons, List.getD_eq_getElem?_getD, List.getElem?_map,
    List.getElem?_range hj', layerDistance, neuronDistance]
  rfl

/-- Witness for C5: layer 1, node 0 of the default topology in the
labeled variant sits at `(200, 50)`. -/
theorem C5_node_coordinates_witness :
    (1 < ([3, 4, 2] : List Int).length ∧ 0 < (([3, 4, 2] : List Int).getD 1 0).toNat) ∧
    ((neuronsOf 30 [3, 4, 2]).getD 1 []).getD 0 ⟨0, 0⟩ = ⟨200, 50⟩ := by
  refine ⟨⟨by decide, by decide⟩, ?_⟩
  rw [C5_node_coordinates 30 [3, 4, 2] 1 0 (by decide) (by decide)]
  have hmax : jsMaxList [3, 4, 2] = 4 := by decide
  have hget : ([3, 4, 2] : List Int).getD 1 0 = 4 := by decide
  rw [Point.mk.injEq]
  constructor
  · norm_num
  · rw [hget, canvasHeight, hmax, neuronDistance]
    norm_num

/-- The per-layer node counts are the (clamped) layer sizes. -/
theorem neuronsOf_map_length (off : ℚ) (layers : List Int) :
    (neuronsOf off layers).map List.length = layers.map Int.toNat := by
  rw [neuronsOf, List.map_map]
  have hfun : (List.length ∘ fun p : Nat × Int =>
      layerNeurons (canvasHeight layers) off p.1 p.2) = (Int.toNat ∘ Prod.snd) := by
    funext p
    simp [layerNeurons]
  rw [hfun, ← List.map_map, List.enum_map_snd]

/-- Row `i` of the neuron grid has `(layers.getD i 0).toNat` nodes. -/
theorem neuronsOf_getD_length (off : ℚ) (layers : List Int) (i : Nat)
    (hi : i < layers.length) :
    ((neuronsOf off layers).getD i []).length = (layers.getD i 0).toNat := by
  rw [neuronsOf_getD off layers i hi]
  simp [layerNeurons]

/-- Pairing every element of `l1` with every element of `l2` yields
`l1.length * l2.length` items. -/
theorem flatMap_pairs_length {α β γ : Type} (l1 : List α) (l2 : List β) (g : α → β → γ) :
    (l1.flatMap (fun a => l2.map (g a))).length = l1.length * l2.length := by
  induction l1 with
  | nil => simp
  | cons x xs ih => simp [ih, Nat.succ_mul, Nat.add_comm]

/-- The connection list's length is the sum over adjacent layer indices
of the products of the rows' lengths. -/
theorem connectionsOf_length (layers : List Int) (neurons : List (List Point)) :
    (connectionsOf layers neurons).length =
      ((List.range (layers.length - 1)).map (fun i =>
        (neurons.getD i []).length * (neurons.getD (i + 1) []).length)).sum := by
  rw [connectionsOf, List.length_flatMap]
  congr 1
  apply List.map_congr_left
  intro i _
  simp only [Function.comp_apply]
  rw [flatMap_pairs_length, List.enum_length, List.enum_length]

/-- Summing a function of adjacent entries over index range equals the
sum over the zip of the list with its tail. -/
theorem sum_range_adjacent_prod (g : Int → Nat) :
    ∀ l : List Int,
      ((List.range (l.length - 1)).map (fun i =>
        g (l.getD i 0) * g (l.getD (i + 1) 0))).sum
      = ((l.zip l.tail).map (fun p => g p.1 * g p.2)).sum := by
  intro l
  induction l with
  | nil => rfl
  | cons x xs ih =>
    cases xs with
    | nil => rfl
    | cons y ys =>
      have hlen : (x :: y :: ys).length - 1 = ((y :: ys).length - 1) + 1 := by
        simp
      rw [hlen, List.range_succ_eq_map, List.map_cons, List.sum_cons, List.map_map]
      have htail : ((List.range ((y :: ys).length - 1)).map
            ((fun i => g ((x :: y :: ys).getD i 0) * g ((x :: y :: ys).getD (i + 1) 0))
              ∘ Nat.succ))
          = (List.range ((y :: ys).length - 1)).map
              (fun i => g ((y :: ys).getD i 0) * g ((y :: ys).getD (i + 1) 0)) := by
        apply List.map_congr_left
        intro i _
        simp [List.getD_cons_succ]
      rw [htail, ih]
      simp [List.getD_cons_zero, List.getD_cons_succ]

/-- Casting the node-count sum to `Int` recovers the layer-size sum when
every size is at least one. -/
theorem cast_sum_map_toNat (l : List Int) (h : ∀ x ∈ l, 1 ≤ x) :
    (((l.map Int.toNat).sum : Nat) : Int) = l.sum := by
  rw [Nat.cast_list_sum, List.map_map]
  have hmap : List.map ((Nat.cast : Nat → Int) ∘ Int.toNat) l = List.map id l := by
    apply List.map_congr_left
    intro x hx
    simp only [Function.comp_apply, id_eq]
    exact Int.toNat_of_nonneg (le_trans zero_le_one (h x hx))
  rw [hmap, List.map_id]

/-- Casting the adjacent-product sum to `Int` recovers the product of
the (positive) sizes. -/
theorem cast_sum_zip_prod (l : List Int) (h : ∀ x ∈ l, 1 ≤ x) :
    ((((l.zip l.tail).map (fun p => p.1.toNat * p.2.toNat)).sum : Nat) : Int)
      = ((l.zip l.tail).map (fun p => p.1 * p.2)).sum := by
  rw [Nat.cast_list_sum, List.map_map]
  apply congrArg List.sum
  apply List.map_congr_left
  intro p hp
  have h1 : p.1 ∈ l := (List.of_mem_zip hp).1
  have h2 : p.2 ∈ l := List.mem_of_mem_tail (List.of_mem_zip hp).2
  have e1 : ((p.1.toNat : Int)) = p.1 :=
    Int.toNat_of_nonneg (le_trans zero_le_one (h p.1 h1))
  have e2 : ((p.2.toNat : Int)) = p.2 :=
    Int.toNat_of_nonneg (le_trans zero_le_one (h p.2 h2))
  simp only [Function.comp_apply, Nat.cast_mul, e1, e2]

/-- Claim C1: for a topology of `n ≥ 2` layers with sizes `s_1..s_n`
(each `≥ 1`), the layout holds exactly `Σ s_i` node positions and
exactly `Σ_{i=1}^{n-1} s_i * s_{i+1}` connections (one per pair of nodes
in adjacent layers). -/
theorem C1_layout_counts (off : ℚ) (layers : List Int)
    (hlen : 2 ≤ layers.length) (hpos : ∀ x ∈ layers, 1 ≤ x) :
    ((((neuronsOf off layers).map List.length).sum : Nat) : Int) = layers.sum ∧
    (((connectionsOf layers (neuronsOf off layers)).length : Nat) : Int)
      = ((layers.zip layers.tail).map (fun p => p.1 * p.2)).sum := by
  constructor
  · rw [neuronsOf_map_length, cast_sum_map_toNat layers hpos]
  · rw [connectionsOf_length]
    have hcong : (List.range (layers.length - 1)).map (fun i =>
          ((neuronsOf off layers).getD i []).length
            * ((neuronsOf off layers).getD (i + 1) []).length)
        = (List.range (layers.length - 1)).map (fun i =>
          (layers.getD i 0).toNat * (layers.getD (i + 1) 0).toNat) := by
      apply List.map_congr_left
      intro i hi
      have hi' : i < layers.length - 1 := List.mem_range.mp hi
      have h1 : i < layers.length := by omega
      have h2 : i + 1 < layers.length := by omega
      rw [neuronsOf_getD_length off layers i h1,
          neuronsOf_getD_length off layers (i + 1) h2]
    rw [hcong, sum_range_adjacent_prod Int.toNat layers,
        cast_sum_zip_prod layers hpos]

/-- Witness for C1 on the default topology `[3, 4, 2]`: 9 nodes and
`3*4 + 4*2 = 20` connections. -/
theorem C1_layout_counts_witness :
    (2 ≤ ([3, 4, 2] : List Int).length ∧ ∀ x ∈ ([3, 4, 2] : List Int), 1 ≤ x) ∧
    (((connectionsOf [3, 4, 2] (neuronsOf 0 [3, 4, 2])).length : Nat) : Int)
      = ((([3, 4, 2] : List Int).zip ([3, 4, 2] : List Int).tail).map
          (fun p => p.1 * p.2)).sum :=
  ⟨⟨by decide, by decide⟩, (C1_layout_counts 0 [3, 4, 2] (by decide) (by decide)).2⟩

/-! ## Animation (`DataFlow`)

The geometry of the data-flow marker is modelled exactly over `ℝ`.
`calculateAngle` and `calculateDistance` are the source's helpers;
`markerPos` renders the animation runtime's documented keyframe
semantics. Modelled from the spec: the animation library interpolating
the keyframes `[0, v, 0]` over `duration = 2 / speed` with linear easing
(evenly spaced keyframes, no easing curve) is not part of `src/`. -/

/-- `Math.atan2(endY - startY, endX - startX)`: the argument of the
complex number `(endX - startX) + (endY - startY) i`. -/
noncomputable def calculateAngle (startX startY endX endY : ℝ) : ℝ :=
  Complex.arg ⟨endX - startX, endY - startY⟩

/-- `Math.sqrt(Math.pow(endX - startX, 2) + Math.pow(endY - startY, 2))`. -/
noncomputable def calculateDistance (startX startY endX endY : ℝ) : ℝ :=
  Real.sqrt ((endX - startX) ^ 2 + (endY - startY) ^ 2)

/-- The `DataFlow` transition duration, `2 / speed` seconds per
round-trip cycle. -/
noncomputable def cycleDuration (speed : ℝ) : ℝ := 2 / speed

/-- Linear interpolation through the keyframes `[a, b, c]` at phase
`u ∈ [0, 1]` of one cycle, keyframes evenly spaced, linear easing. -/
noncomputable def keyframe3 (a b c u : ℝ) : ℝ :=
  if u ≤ 1 / 2 then a + (b - a) * (2 * u) else b + (c - b) * (2 * u - 1)

/-- The animated marker's position at phase `u` of one cycle: the circle
starts at `(startX, startY)` and its offset animates through
`x: [0, cos(angle)*distance, 0]`, `y: [0, sin(angle)*distance, 0]`. -/
noncomputable def markerPos (startX startY endX endY u : ℝ) : ℝ × ℝ :=
  (startX + keyframe3 0
      (Real.cos (calculateAngle startX startY endX endY)
        * calculateDistance startX startY endX endY) 0 u,
   startY + keyframe3 0
      (Real.sin (calculateAngle startX startY endX endY)
        * calculateDistance startX startY endX endY) 0 u)

/-- The distance helper computes the modulus of the displacement seen as
a complex number. -/
theorem calculateDistance_eq_abs (sx sy ex ey : ℝ) :
    calculateDistance sx sy ex ey = Complex.abs ⟨ex - sx, ey - sy⟩ := by
  rw [calculateDistance, Complex.abs_apply, Complex.normSq_mk]
  ring_nf

/-- `cos(atan2(dy, dx)) * sqrt(dx^2 + dy^2) = dx`, exactly. -/
theorem cos_angle_mul_distance (sx sy ex ey : ℝ) :
    Real.cos (calculateAngle sx sy ex ey) * calculateDistance sx sy ex ey
      = ex - sx := by
  rw [calculateAngle, calculateDistance_eq_abs]
  by_cases hz : (⟨ex - sx, ey - sy⟩ : ℂ) = 0
  · rw [hz]
    have hre : (0 : ℂ).re = ex - sx := by rw [← hz]
    simp [← hre]
  · rw [Complex.cos_arg hz, div_mul_cancel₀]
    exact (Complex.abs.ne_zero_iff).mpr hz

/-- `sin(atan2(dy, dx)) * sqrt(dx^2 + dy^2) = dy`, exactly. -/
theorem sin_angle_mul_distance (sx sy ex ey : ℝ) :
    Real.sin (calculateAngle sx sy ex ey) * calculateDistance sx sy ex ey
      = ey - sy := by
  rw [calculateAngle, calculateDistance_eq_abs]
  by_cases hz : (⟨ex - sx, ey - sy⟩ : ℂ) = 0
  · rw [hz]
    have him : (0 : ℂ).im = ey - sy := by rw [← hz]
    simp [← him]
  · rw [Complex.sin_arg, div_mul_cancel₀]
    exact (Complex.abs.ne_zero_iff).mpr hz

/-- Claim C8: for every connection and speed multiplier in `[0.5, 5]`,
the round-trip cycle lasts `BASE_PERIOD / speed` with `BASE_PERIOD = 2`
(so doubling the speed halves the duration), and the linearly paced
marker sits on the source node at cycle start and end and exactly on the
destination node at the cycle midpoint. -/
theorem C8_animation (sx sy ex ey speed : ℝ)
    (h1 : 1 / 2 ≤ speed) (h2 : speed ≤ 5) :
    cycleDuration speed = 2 / speed ∧
    cycleDuration (2 * speed) = cycleDuration speed / 2 ∧
    markerPos sx sy ex ey 0 = (sx, sy) ∧
    markerPos sx sy ex ey (1 / 2) = (ex, ey) ∧
    markerPos sx sy ex ey 1 = (sx, sy) := by
  have hs : speed ≠ 0 := by
    intro h
    rw [h] at h1
    norm_num at h1
  refine ⟨rfl, ?_, ?_, ?_, ?_⟩
  · rw [cycleDuration, cycleDuration]
    field_simp
    ring
  · simp only [markerPos, keyframe3]
    norm_num
  · simp only [markerPos, keyframe3]
    norm_num [cos_angle_mul_distance, sin_angle_mul_distance]
  · simp only [markerPos, keyframe3]
    norm_num

/-- Witness for C8 at the connection `(0,0) → (3,4)` and speed `1`. -/
theorem C8_animation_witness :
    ((1 : ℝ) / 2 ≤ 1 ∧ (1 : ℝ) ≤ 5) ∧
    markerPos 0 0 3 4 (1 / 2) = (3, 4) ∧
    cycleDuration (2 * 1) = cycleDuration 1 / 2 :=
  ⟨⟨by norm_num, by norm_num⟩,
   (C8_animation 0 0 3 4 1 (by norm_num) (by norm_num)).2.2.2.1,
   (C8_animation 0 0 3 4 1 (by norm_num) (by norm_num)).2.1⟩

end NNVis
